import Mathlib

/-!
Verification of the object-storage uploader `AwsS3Service`
(`packages/plugin-node/src/services/awsS3.ts`).

The service is shallowly embedded: the mutable class fields become the
`S3State` structure, the external collaborators (file system, environment,
storage backend, URL signer) become the `World` record of oracles, and each
method becomes a pure function `S3State → World → ... → S3State × result ×
List BackendCall`, where the final component logs the backend requests the
method issued.  JavaScript truthiness, `String.prototype.replaceAll`,
the regex replace in `uploadJson`, `path.basename`, `path.extname` and
`JSON.stringify(_, null, 2)` are each modelled explicitly below.
-/

namespace AwsS3

/-! ## String helpers: the path functions the source uses -/

/-- One left-to-right pass of the JavaScript call `.replaceAll('//', '/')`
(awsS3.ts line 85): each non-overlapping occurrence of `//` is replaced by a
single `/`.  Note this is a single pass, so a run of three slashes leaves two. -/
def replacePairs : List Char → List Char
  | [] => []
  | [c] => [c]
  | a :: b :: rest =>
    if a = '/' ∧ b = '/' then '/' :: replacePairs rest
    else a :: replacePairs (b :: rest)

/-- `s.replaceAll('//', '/')` on strings. -/
def replaceDoubleSlashes (s : String) : String := String.mk (replacePairs s.data)

/-- State-machine pass of the regex replace `.replace(/\/+/g, '/')`
(awsS3.ts lines 189 and 191): the flag records whether the previous kept
character was a slash, so every maximal run of slashes emits exactly one. -/
def collapseAux : Bool → List Char → List Char
  | _, [] => []
  | p, c :: rest =>
    if c = '/' then
      if p then collapseAux true rest
      else '/' :: collapseAux true rest
    else c :: collapseAux false rest

/-- `s.replace(/\/+/g, '/')` on strings. -/
def collapseSlashes (s : String) : String := String.mk (collapseAux false s.data)

/-- Trailing separators are ignored by Node's `path.basename`. -/
def dropTrailingSlashes (cs : List Char) : List Char :=
  (cs.reverse.dropWhile (fun c => c = '/')).reverse

/-- The characters after the last `/`. -/
def afterLastSlash (cs : List Char) : List Char :=
  (cs.reverse.takeWhile (fun c => c ≠ '/')).reverse

/-- Node `path.basename` (POSIX): drop trailing slashes, then keep what
follows the last remaining slash. -/
def basename (p : String) : String :=
  String.mk (afterLastSlash (dropTrailingSlashes p.data))

/-- Node `path.extname` (POSIX): the suffix of the basename from its last
dot, except that a dot in first position (a dotfile) yields `""`. -/
def extname (p : String) : String :=
  let b := (basename p).data
  let tail := b.reverse.takeWhile (fun c => c ≠ '.')
  if tail.length = b.length then ""
  else if b.length - tail.length - 1 = 0 then ""
  else String.mk (b.drop (b.length - tail.length - 1))

/-! ## JavaScript values, truthiness and `JSON.stringify(_, null, 2)` -/

/-- The JavaScript values `uploadJson` can receive as `jsonData`.
`nan` models the number `NaN` (its truthiness and serialization are exact;
no floating-point arithmetic is performed on it). -/
inductive JSValue where
  | undef
  | null
  | bool (b : Bool)
  | num (n : Int)
  | nan
  | str (s : String)
  | arr (elems : List JSValue)
  | obj (fields : List (String × JSValue))

/-- JavaScript truthiness: `undefined`, `null`, `false`, `0`, `NaN` and
`""` are falsy, everything else (objects and arrays included) is truthy. -/
def truthy : JSValue → Bool
  | .undef => false
  | .null => false
  | .bool b => b
  | .num n => n != 0
  | .nan => false
  | .str s => s != ""
  | .arr _ => true
  | .obj _ => true

def isUndef : JSValue → Bool
  | .undef => true
  | _ => false

/-- Two-space indentation at nesting depth `d`. -/
def indentStr (d : Nat) : String := String.mk (List.replicate (2 * d) ' ')

def escChar (c : Char) : String :=
  if c = '"' then "\\\""
  else if c = '\\' then "\\\\"
  else if c = '\n' then "\\n"
  else String.singleton c

/-- JSON string quoting (double quotes, backslash escapes). -/
def quoteStr (s : String) : String :=
  "\"" ++ String.join (s.data.map escChar) ++ "\""

mutual

/-- `JSON.stringify(v, null, 2)` for a value whose closing delimiter sits at
depth `d`: `NaN` and a nested `undefined` array element print as `null`,
object entries whose value is `undefined` are dropped, and composite values
put each entry on its own line indented two spaces per depth. -/
def strfyVal (d : Nat) : JSValue → String
  | .undef => "null"
  | .null => "null"
  | .bool b => cond b "true" "false"
  | .num n => toString n
  | .nan => "null"
  | .str s => quoteStr s
  | .arr es =>
    match es with
    | [] => "[]"
    | _ :: _ =>
      "[\n" ++ String.intercalate ",\n" (strfyArr (d + 1) es) ++ "\n" ++ indentStr d ++ "]"
  | .obj fs =>
    match strfyObj (d + 1) fs with
    | [] => "\x7b\x7d"
    | e :: es =>
      "\x7b\n" ++ String.intercalate ",\n" (e :: es) ++ "\n" ++ indentStr d ++ "\x7d"

def strfyArr (d : Nat) : List JSValue → List String
  | [] => []
  | v :: vs => (indentStr d ++ strfyVal d v) :: strfyArr d vs

def strfyObj (d : Nat) : List (String × JSValue) → List String
  | [] => []
  | (k, v) :: fs =>
    if isUndef v then strfyObj d fs
    else (indentStr d ++ quoteStr k ++ ": " ++ strfyVal d v) :: strfyObj d fs

end

/-- `JSON.stringify(jsonData, null, 2)` as called on awsS3.ts line 194. -/
def jsonStringify (v : JSValue) : String := strfyVal 0 v

/-! ## Service state, settings and external world -/

/-- The settings the service reads through `runtime.getSetting` — exactly the
five keys `initialize` queries.  `none` models an undefined setting. -/
structure Settings where
  awsAccessKeyId : Option String
  awsSecretAccessKey : Option String
  awsRegion : Option String
  awsS3Bucket : Option String
  awsS3UploadPath : Option String
  deriving DecidableEq, Repr

/-- JavaScript truthiness of a string-or-undefined setting value, as used by
the `!AWS_ACCESS_KEY_ID || ...` guard: `undefined` and `""` are falsy. -/
def presentStr (o : Option String) : Bool := o.getD "" != ""

/-- The mutable fields of `AwsS3Service` after `initialize`: the `S3Client`
is represented by its binding (region and credentials), plus `bucket`,
`fileUploadPath` and `runtime`. -/
structure S3State where
  clientRegion : String
  clientAccessKeyId : String
  clientSecretAccessKey : String
  bucket : String
  fileUploadPath : String
  runtime : Option Settings
  deriving DecidableEq, Repr

/-- `initialize` (awsS3.ts lines 37–66): throws (modelled as `.error`) when
any of the four required settings is undefined or empty, otherwise builds the
client from region and credentials and stores bucket and upload path (the
latter defaulting to `""` via `?? ""`). -/
def initializeS3 (runtime : Settings) : Except String S3State :=
  if presentStr runtime.awsAccessKeyId &&
      presentStr runtime.awsSecretAccessKey &&
      presentStr runtime.awsRegion &&
      presentStr runtime.awsS3Bucket then
    .ok { clientRegion := runtime.awsRegion.getD ""
          clientAccessKeyId := runtime.awsAccessKeyId.getD ""
          clientSecretAccessKey := runtime.awsSecretAccessKey.getD ""
          bucket := runtime.awsS3Bucket.getD ""
          fileUploadPath := runtime.awsS3UploadPath.getD ""
          runtime := some runtime }
  else
    .error "Missing required AWS credentials in environment variables"

/-- A value thrown by the backend: either an `Error` carrying a message, or
some non-`Error` value.  The catch blocks distinguish the two. -/
inductive JSErr where
  | err (msg : String)
  | nonError
  deriving DecidableEq, Repr

/-- `error instanceof Error ? error.message : "Unknown error occurred"`. -/
def jsErrMsg : JSErr → String
  | .err m => m
  | .nonError => "Unknown error occurred"

inductive PutBody where
  | bytes (content : List Nat)
  | str (content : String)
  deriving DecidableEq, Repr

/-- The argument of a `PutObjectCommand`. -/
structure PutParams where
  bucket : String
  key : String
  body : PutBody
  contentType : String
  deriving DecidableEq, Repr

/-- One request issued to the storage backend: a `PutObjectCommand` send, or
a `getSignedUrl` for a `GetObjectCommand` on `(bucket, key)` with an expiry. -/
inductive BackendCall where
  | put (params : PutParams)
  | sign (bucket : String) (key : String) (expiresIn : Nat)
  deriving DecidableEq, Repr

/-- The external world: the local file system (`fs.existsSync` succeeds
exactly when `fs` returns `some`, and `fs.readFileSync` then yields those
bytes), `process.env.AWS_REGION`, and the backend's response to each put and
signing request.  An `.error` response models a thrown exception. -/
structure World where
  fs : String → Option (List Nat)
  envAwsRegion : Option String
  putResult : PutParams → Except JSErr Unit
  signResult : String → String → Nat → Except JSErr String

/-- The public URL template of awsS3.ts lines 104 and 215:
`https://${bucket}.s3.${process.env.AWS_REGION}.amazonaws.com/${key}`.
A template literal prints an undefined environment variable as the string
`"undefined"`. -/
def publicUrl (bucket : String) (envRegion : Option String) (key : String) : String :=
  "https://" ++ bucket ++ ".s3." ++ envRegion.getD "undefined" ++ ".amazonaws.com/" ++ key

/-! ## Content-type inference -/

/-- ASCII lower-casing of one character, as `String.prototype.toLowerCase`
acts on the ASCII range file extensions live in. -/
def lowerChar (c : Char) : Char :=
  if 'A' ≤ c ∧ c ≤ 'Z' then Char.ofNat (c.toNat + 32) else c

/-- `ext.toLowerCase()` (awsS3.ts line 147). -/
def lowerStr (s : String) : String := String.mk (s.data.map lowerChar)

/-- The extension table of `getContentType` (awsS3.ts lines 148–154). -/
def contentTypes : List (String × String) :=
  [(".png", "image/png"), (".jpg", "image/jpeg"), (".jpeg", "image/jpeg"),
   (".gif", "image/gif"), (".webp", "image/webp")]

/-- `contentTypes[ext] || "application/octet-stream"`. -/
def ctOfExt (ext : String) : String :=
  (contentTypes.lookup ext).getD "application/octet-stream"

/-- `getContentType` (awsS3.ts lines 146–156): look the lower-cased extension
up in the table, defaulting to `application/octet-stream`. -/
def getContentType (filePath : String) : String :=
  ctOfExt (lowerStr (extname filePath))

/-! ## The three public operations -/

/-- The failure result a JSON upload returns. -/
structure UploadResult where
  success : Bool
  url : Option String
  error : Option String
  deriving DecidableEq, Repr

structure JsonUploadResult where
  success : Bool
  url : Option String
  key : Option String
  error : Option String
  deriving DecidableEq, Repr

/-- The storage key `uploadFile` derives (awsS3.ts lines 83–85):
`` `${fileUploadPath}/${Date.now()}-${path.basename(filePath)}` `` followed
by `.replaceAll('//', '/')`. -/
def uploadFileKey (uploadPath : String) (now : Nat) (filePath : String) : String :=
  replaceDoubleSlashes (uploadPath ++ "/" ++ (Nat.repr now ++ "-" ++ basename filePath))

/-- `uploadFile` (awsS3.ts lines 68–129).  `now` is the value of
`Date.now()`.  Every branch leaves the state unchanged; the list logs the
backend calls issued. -/
def uploadFile (st : S3State) (w : World) (now : Nat) (filePath : String)
    (useSignedUrl : Bool) (expiresIn : Nat) :
    S3State × UploadResult × List BackendCall :=
  match w.fs filePath with
  | none => (st, ⟨false, none, some "File does not exist"⟩, [])
  | some fileContent =>
    let fileName := uploadFileKey st.fileUploadPath now filePath
    let uploadParams : PutParams :=
      ⟨st.bucket, fileName, .bytes fileContent, getContentType filePath⟩
    match w.putResult uploadParams with
    | .error e => (st, ⟨false, none, some (jsErrMsg e)⟩, [.put uploadParams])
    | .ok _ =>
      if !useSignedUrl then
        (st, ⟨true, some (publicUrl st.bucket w.envAwsRegion fileName), none⟩,
          [.put uploadParams])
      else
        match w.signResult st.bucket fileName expiresIn with
        | .error e =>
          (st, ⟨false, none, some (jsErrMsg e)⟩,
            [.put uploadParams, .sign st.bucket fileName expiresIn])
        | .ok u =>
          (st, ⟨true, some u, none⟩,
            [.put uploadParams, .sign st.bucket fileName expiresIn])

/-- `generateSignedUrl` (awsS3.ts lines 134–144): no try/catch — the
signer's outcome, error included, is returned as is. -/
def generateSignedUrl (st : S3State) (w : World) (fileName : String) (expiresIn : Nat) :
    S3State × Except JSErr String × List BackendCall :=
  (st, w.signResult st.bucket fileName expiresIn, [.sign st.bucket fileName expiresIn])

/-- `fileName || `${timestamp}.json`` (awsS3.ts line 184): an undefined or
empty filename falls back to the millisecond timestamp with `.json`. -/
def actualJsonName (now : Nat) (fileName : Option String) : String :=
  match fileName with
  | none => Nat.repr now ++ ".json"
  | some f => if f = "" then Nat.repr now ++ ".json" else f

/-- The storage key `uploadJson` derives (awsS3.ts lines 186–191): the
upload path, then `/{subDirectory}` when that is truthy, then
`/{fileName}`, each join collapsing slash runs via `.replace(/\/+/g, '/')`. -/
def jsonKey (uploadPath : String) (subDirectory : Option String) (fileName : String) : String :=
  let fullPath :=
    match subDirectory with
    | none => uploadPath
    | some sd => if sd = "" then uploadPath else collapseSlashes (uploadPath ++ "/" ++ sd)
  collapseSlashes (fullPath ++ "/" ++ fileName)

/-- `uploadJson` (awsS3.ts lines 166–236). -/
def uploadJson (st : S3State) (w : World) (now : Nat) (jsonData : JSValue)
    (fileName : Option String) (subDirectory : Option String)
    (useSignedUrl : Bool) (expiresIn : Nat) :
    S3State × JsonUploadResult × List BackendCall :=
  if !(truthy jsonData) then
    (st, ⟨false, none, none, some "JSON data is required"⟩, [])
  else
    let key := jsonKey st.fileUploadPath subDirectory (actualJsonName now fileName)
    let jsonString := jsonStringify jsonData
    let uploadParams : PutParams := ⟨st.bucket, key, .str jsonString, "application/json"⟩
    match w.putResult uploadParams with
    | .error e => (st, ⟨false, none, none, some (jsErrMsg e)⟩, [.put uploadParams])
    | .ok _ =>
      if !useSignedUrl then
        (st, ⟨true, some (publicUrl st.bucket w.envAwsRegion key), some key, none⟩,
          [.put uploadParams])
      else
        match w.signResult st.bucket key expiresIn with
        | .error e =>
          (st, ⟨false, none, none, some (jsErrMsg e)⟩,
            [.put uploadParams, .sign st.bucket key expiresIn])
        | .ok u =>
          (st, ⟨true, some u, some key, none⟩,
            [.put uploadParams, .sign st.bucket key expiresIn])

/-! ## Slash predicates and normalization lemmas -/

/-- `true` when the list contains two consecutive `/` characters. -/
def hasDoubleSlash : List Char → Bool
  | [] => false
  | [_] => false
  | a :: b :: l => (a = '/' && b = '/') || hasDoubleSlash (b :: l)

/-- `true` when the list contains no `/` at all. -/
def noSlash (l : List Char) : Bool := l.all (fun c => c != '/')

/-- `true` when the list starts with `/`. -/
def headSlash : List Char → Bool
  | [] => false
  | c :: _ => c = '/'

theorem hasDoubleSlash_cons_false {a : Char} {l : List Char}
    (h : hasDoubleSlash (a :: l) = false) : hasDoubleSlash l = false := by
  cases l with
  | nil => rfl
  | cons b r => simp [hasDoubleSlash] at h; simp [h.2]

theorem headSlash_collapseAux_true (l : List Char) :
    headSlash (collapseAux true l) = false := by
  induction l with
  | nil => rfl
  | cons c rest ih =>
    by_cases hc : c = '/'
    · simp [collapseAux, hc, ih]
    · simp [collapseAux, hc, headSlash]

/-- The output of the regex collapse never contains two consecutive slashes. -/
theorem hasDoubleSlash_collapseAux (l : List Char) :
    ∀ p, hasDoubleSlash (collapseAux p l) = false := by
  induction l with
  | nil => intro p; rfl
  | cons c rest ih =>
    intro p
    by_cases hc : c = '/'
    · by_cases hp : p = true
      · simp [collapseAux, hc, hp, ih]
      · have hp' : p = false := by revert hp; cases p <;> simp
        have hhead := headSlash_collapseAux_true rest
        have htail := ih true
        simp only [collapseAux, hc, hp', if_true, if_false, ite_true, ite_false]
        cases hX : collapseAux true rest with
        | nil => rfl
        | cons x xs =>
          rw [hX] at hhead htail
          simp [headSlash] at hhead
          simp [hasDoubleSlash, hhead, htail]
    · have htail := ih false
      simp only [collapseAux, hc, ite_false, if_false]
      cases hX : collapseAux false rest with
      | nil => simp [hasDoubleSlash]
      | cons x xs =>
        rw [hX] at htail
        simp [hasDoubleSlash, htail, hc]

theorem hasDoubleSlash_collapseSlashes (s : String) :
    hasDoubleSlash (collapseSlashes s).data = false :=
  hasDoubleSlash_collapseAux s.data false

/-- A slash-free list is left unchanged by the single replacement pass. -/
theorem replacePairs_of_noSlash (l : List Char) (h : noSlash l = true) :
    replacePairs l = l := by
  induction l with
  | nil => rfl
  | cons a rest ih =>
    have ha : (a != '/') = true := by
      simp [noSlash] at h ⊢; exact fun hx => absurd hx (by simpa using h.1)
    have hrest : noSlash rest = true := by
      simp [noSlash] at h ⊢; intro c hc; exact h.2 c hc
    have ha' : ¬ a = '/' := by simpa using ha
    cases rest with
    | nil => rfl
    | cons b r =>
      simp only [replacePairs]
      rw [if_neg (by intro hab; exact ha' hab.1)]
      rw [ih hrest]

theorem hasDoubleSlash_of_noSlash (l : List Char) (h : noSlash l = true) :
    hasDoubleSlash l = false := by
  induction l with
  | nil => rfl
  | cons a rest ih =>
    have hrest : noSlash rest = true := by
      simp [noSlash] at h ⊢; intro c hc; exact h.2 c hc
    cases rest with
    | nil => rfl
    | cons b r =>
      have hb : ¬ b = '/' := by simp [noSlash] at hrest; simpa using hrest.1
      simp [hasDoubleSlash, hb, ih hrest]

theorem hasDoubleSlash_slash_cons (l : List Char) (h : noSlash l = true) :
    hasDoubleSlash ('/' :: l) = false := by
  cases l with
  | nil => rfl
  | cons b r =>
    have hb : ¬ b = '/' := by simp [noSlash] at h; simpa using h.1
    simp [hasDoubleSlash, hb, hasDoubleSlash_of_noSlash _ h]

/-- The replacement pass preserves the head character. -/
theorem replacePairs_head (b : Char) (r : List Char) :
    ∃ t, replacePairs (b :: r) = b :: t := by
  cases r with
  | nil => exact ⟨[], rfl⟩
  | cons c r2 =>
    by_cases h : b = '/' ∧ c = '/'
    · obtain ⟨hb, hc⟩ := h
      subst hb; subst hc
      refine ⟨replacePairs r2, ?_⟩
      simp [replacePairs]
    · refine ⟨replacePairs (c :: r2), ?_⟩
      simp only [replacePairs, if_neg h]

theorem replacePairs_slash_cons (l : List Char) (h : noSlash l = true) :
    replacePairs ('/' :: l) = '/' :: l := by
  cases l with
  | nil => rfl
  | cons b r =>
    have hb : ¬ b = '/' := by simp [noSlash] at h; simpa using h.1
    have hrest : noSlash (b :: r) = true := h
    simp only [replacePairs]
    rw [if_neg (by intro hx; exact hb hx.2)]
    rw [replacePairs_of_noSlash _ hrest]

/-- The single `replaceAll('//', '/')` pass yields a key with no `//`,
provided the part before the inserted separator has no `//` of its own and
the appended filename contains no slash. -/
theorem hasDoubleSlash_replacePairs_append
    (P B : List Char) (hP : hasDoubleSlash P = false) (hB : noSlash B = true) :
    hasDoubleSlash (replacePairs (P ++ '/' :: B)) = false := by
  induction P with
  | nil =>
    simp only [List.nil_append]
    rw [replacePairs_slash_cons B hB]
    exact hasDoubleSlash_slash_cons B hB
  | cons a P' ih =>
    have hP' : hasDoubleSlash P' = false := hasDoubleSlash_cons_false hP
    cases P' with
    | nil =>
      simp only [List.cons_append, List.nil_append]
      by_cases ha : a = '/'
      · subst ha
        simp only [replacePairs]
        simp only [and_self, ite_true]
        rw [replacePairs_of_noSlash B hB]
        exact hasDoubleSlash_slash_cons B hB
      · simp only [replacePairs]
        rw [if_neg (by intro hx; exact ha hx.1)]
        rw [replacePairs_slash_cons B hB]
        simp [hasDoubleSlash, ha, hasDoubleSlash_slash_cons B hB]
    | cons x P'' =>
      have hax : ¬ (a = '/' ∧ x = '/') := by
        intro hx
        simp [hasDoubleSlash, hx.1, hx.2] at hP
      simp only [List.cons_append]
      simp only [replacePairs]
      rw [if_neg hax]
      obtain ⟨t, ht⟩ := replacePairs_head x (P'' ++ '/' :: B)
      have hrec := ih hP'
      simp only [List.cons_append] at hrec
      rw [ht] at hrec ⊢
      simp only [hasDoubleSlash, hrec, Bool.or_false]
      simp only [Bool.and_eq_false_iff, decide_eq_false_iff_not]
      by_cases ha : a = '/'
      · exact Or.inr fun hx => hax ⟨ha, hx⟩
      · exact Or.inl ha

/-! ## The generated filename contains no slash -/

theorem data_append (s t : String) : (s ++ t).data = s.data ++ t.data := rfl

theorem digitChar_ne_slash (k : Nat) (h : k < 10) : Nat.digitChar k ≠ '/' := by
  interval_cases k <;> decide

theorem toDigitsCore_no_slash (fuel : Nat) :
    ∀ (n : Nat) (ds : List Char), (∀ c ∈ ds, c ≠ '/') →
      ∀ c ∈ Nat.toDigitsCore 10 fuel n ds, c ≠ '/' := by
  induction fuel with
  | zero => intro n ds h c hc; exact h c hc
  | succ f ih =>
    intro n ds h c hc
    have hacc : ∀ c ∈ (Nat.digitChar (n % 10) :: ds), c ≠ '/' := by
      intro c hc
      rcases List.mem_cons.mp hc with h1 | h2
      · subst h1; exact digitChar_ne_slash _ (Nat.mod_lt _ (by omega))
      · exact h c h2
    simp only [Nat.toDigitsCore] at hc
    split at hc
    · exact hacc c hc
    · exact ih _ _ hacc c hc

theorem noSlash_repr (n : Nat) : noSlash (Nat.repr n).data = true := by
  have hd : (Nat.repr n).data = Nat.toDigitsCore 10 (n + 1) n [] := rfl
  have h := toDigitsCore_no_slash (n + 1) n [] (by simp)
  simp only [noSlash, List.all_eq_true, bne_iff_ne, ne_eq, hd]
  intro c hc
  exact h c hc

theorem noSlash_afterLastSlash (cs : List Char) :
    noSlash (afterLastSlash cs) = true := by
  simp only [noSlash, afterLastSlash, List.all_eq_true, bne_iff_ne, ne_eq]
  intro c hc
  have hmem := List.mem_reverse.mp hc
  have := List.mem_takeWhile_imp hmem
  simpa using this

theorem noSlash_basename (p : String) : noSlash (basename p).data = true :=
  noSlash_afterLastSlash (dropTrailingSlashes p.data)

theorem noSlash_append {a b : List Char}
    (ha : noSlash a = true) (hb : noSlash b = true) : noSlash (a ++ b) = true := by
  simp only [noSlash, List.all_append, Bool.and_eq_true]
  exact ⟨ha, hb⟩

/-- The generated upload filename `${Date.now()}-${path.basename(filePath)}`
contains no slash character. -/
theorem noSlash_generated_name (now : Nat) (filePath : String) :
    noSlash (Nat.repr now ++ "-" ++ basename filePath).data = true := by
  rw [data_append, data_append]
  refine noSlash_append (noSlash_append (noSlash_repr now) ?_) (noSlash_basename filePath)
  decide

/-- The raw `uploadFile` key before replacement, with the slash exposed. -/
theorem uploadFileKey_data (uploadPath : String) (now : Nat) (filePath : String) :
    (uploadFileKey uploadPath now filePath).data =
      replacePairs (uploadPath.data ++ '/' :: (Nat.repr now ++ "-" ++ basename filePath).data) := by
  show (replaceDoubleSlashes _).data = _
  simp only [replaceDoubleSlashes, data_append]
  congr 1
  simp

/-- `jsonKey` always passes through the final regex collapse. -/
theorem hasDoubleSlash_jsonKey (uploadPath : String) (subDirectory : Option String)
    (fileName : String) :
    hasDoubleSlash (jsonKey uploadPath subDirectory fileName).data = false := by
  unfold jsonKey
  exact hasDoubleSlash_collapseSlashes _

theorem presentStr_iff (o : Option String) :
    presentStr o = true ↔ o ≠ none ∧ o ≠ some "" := by
  cases o with
  | none => simp [presentStr]
  | some a => simp [presentStr]

/-! ## Concrete fixtures used by counterexamples and witnesses -/

/-- A settings source holding all four required values, with region
`us-east-1` and bucket `b`. -/
def exSettings : Settings :=
  ⟨some "AKIA", some "SECRET", some "us-east-1", some "b", some "uploads/"⟩

/-- The state `initialize` builds from `exSettings`. -/
def exState : S3State :=
  ⟨"us-east-1", "AKIA", "SECRET", "b", "uploads/", some exSettings⟩

/-- A world whose `process.env.AWS_REGION` is `eu-west-1` — different from
the settings-source region — with every file present and a healthy backend. -/
def exWorld : World :=
  ⟨fun _ => some [1, 2, 3], some "eu-west-1", fun _ => .ok (), fun _ _ _ => .ok "signed"⟩

/-- A world with no files. -/
def emptyFsWorld : World :=
  ⟨fun _ => none, some "us-east-1", fun _ => .ok (), fun _ _ _ => .ok "signed"⟩

/-- A world whose backend throws `new Error("boom")` on every request. -/
def errWorld : World :=
  ⟨fun _ => some [7], some "us-east-1", fun _ => .error (.err "boom"),
   fun _ _ _ => .error (.err "boom")⟩

/-- A world whose puts succeed but whose URL signer throws
`new Error("boom")`. -/
def signErrWorld : World :=
  ⟨fun _ => some [7], some "us-east-1", fun _ => .ok (),
   fun _ _ _ => .error (.err "boom")⟩

/-! ## Claims -/

/-- C4: `initialize` succeeds and stores the configuration (client bound to
region and credentials, bucket, upload-path prefix) exactly when all four of
AWS_ACCESS_KEY_ID, AWS_SECRET_ACCESS_KEY, AWS_REGION, AWS_S3_BUCKET are
present and non-empty; if any one is missing or empty, it throws. -/
theorem c4_initialize_stores_configuration (s : Settings) :
    ((∃ st, initializeS3 s = .ok st) ↔
      ((s.awsAccessKeyId ≠ none ∧ s.awsAccessKeyId ≠ some "") ∧
       (s.awsSecretAccessKey ≠ none ∧ s.awsSecretAccessKey ≠ some "") ∧
       (s.awsRegion ≠ none ∧ s.awsRegion ≠ some "") ∧
       (s.awsS3Bucket ≠ none ∧ s.awsS3Bucket ≠ some "")))
    ∧ (∀ st, initializeS3 s = .ok st →
        st.clientRegion = s.awsRegion.getD "" ∧
        st.clientAccessKeyId = s.awsAccessKeyId.getD "" ∧
        st.clientSecretAccessKey = s.awsSecretAccessKey.getD "" ∧
        st.bucket = s.awsS3Bucket.getD "" ∧
        st.fileUploadPath = s.awsS3UploadPath.getD "")
    ∧ ((¬ ((s.awsAccessKeyId ≠ none ∧ s.awsAccessKeyId ≠ some "") ∧
          (s.awsSecretAccessKey ≠ none ∧ s.awsSecretAccessKey ≠ some "") ∧
          (s.awsRegion ≠ none ∧ s.awsRegion ≠ some "") ∧
          (s.awsS3Bucket ≠ none ∧ s.awsS3Bucket ≠ some ""))) →
        initializeS3 s = .error "Missing required AWS credentials in environment variables") := by
  refine ⟨?_, ?_, ?_⟩
  · constructor
    · rintro ⟨st, hst⟩
      unfold initializeS3 at hst
      split at hst
      · rename_i hcond
        simp only [Bool.and_eq_true, presentStr_iff] at hcond
        exact ⟨hcond.1.1.1, hcond.1.1.2, hcond.1.2, hcond.2⟩
      · exact absurd hst (by simp)
    · intro h
      have hc : (presentStr s.awsAccessKeyId && presentStr s.awsSecretAccessKey &&
          presentStr s.awsRegion && presentStr s.awsS3Bucket) = true := by
        simp only [Bool.and_eq_true, presentStr_iff]
        exact ⟨⟨⟨h.1, h.2.1⟩, h.2.2.1⟩, h.2.2.2⟩
      unfold initializeS3
      rw [if_pos hc]
      exact ⟨_, rfl⟩
  · intro st hst
    unfold initializeS3 at hst
    split at hst
    · simp only [Except.ok.injEq] at hst
      subst hst
      exact ⟨rfl, rfl, rfl, rfl, rfl⟩
    · exact absurd hst (by simp)
  · intro h
    have hc : ¬ ((presentStr s.awsAccessKeyId && presentStr s.awsSecretAccessKey &&
        presentStr s.awsRegion && presentStr s.awsS3Bucket) = true) := by
      simp only [Bool.and_eq_true, presentStr_iff]
      intro hx
      exact h ⟨hx.1.1.1, hx.1.1.2, hx.1.2, hx.2⟩
    unfold initializeS3
    rw [if_neg hc]

/-- C4 witness: on a settings source with all four values, `initialize`
returns a state holding the configured region and bucket. -/
theorem c4_witness :
    exState.clientRegion = "us-east-1" ∧ exState.bucket = "b" := by
  have h := (c4_initialize_stores_configuration exSettings).2.1 exState rfl
  exact ⟨h.1, h.2.2.2.1⟩

/-- C5: `uploadFile` on a path with no existing file returns the failure
result `File does not exist`, raises nothing, and issues no backend call. -/
theorem c5_uploadFile_missing_file (st : S3State) (w : World) (now : Nat)
    (filePath : String) (useSignedUrl : Bool) (expiresIn : Nat)
    (h : w.fs filePath = none) :
    uploadFile st w now filePath useSignedUrl expiresIn =
      (st, ⟨false, none, some "File does not exist"⟩, []) := by
  unfold uploadFile
  rw [h]

/-- C5 witness at a concrete missing path. -/
theorem c5_witness :
    uploadFile exState emptyFsWorld 0 "missing.png" false 900 =
      (exState, ⟨false, none, some "File does not exist"⟩, []) :=
  c5_uploadFile_missing_file exState emptyFsWorld 0 "missing.png" false 900 rfl

/-- C7: `uploadJson` with `null` (or `undefined`) data returns the failure
result `JSON data is required` and issues no backend call. -/
theorem c7_uploadJson_null_rejected (st : S3State) (w : World) (now : Nat)
    (fileName subDirectory : Option String) (useSignedUrl : Bool) (expiresIn : Nat) :
    uploadJson st w now .null fileName subDirectory useSignedUrl expiresIn =
      (st, ⟨false, none, none, some "JSON data is required"⟩, [])
    ∧ uploadJson st w now .undef fileName subDirectory useSignedUrl expiresIn =
      (st, ⟨false, none, none, some "JSON data is required"⟩, []) :=
  ⟨rfl, rfl⟩

/-- C10: `uploadJson` rejects every falsy payload — `null`, `undefined`, but
also `0`, `false`, `NaN` and `""` — with the `JSON data is required` failure
and no backend call. -/
theorem c10_uploadJson_rejects_falsy (st : S3State) (w : World) (now : Nat)
    (jsonData : JSValue) (fileName subDirectory : Option String)
    (useSignedUrl : Bool) (expiresIn : Nat) (h : truthy jsonData = false) :
    uploadJson st w now jsonData fileName subDirectory useSignedUrl expiresIn =
      (st, ⟨false, none, none, some "JSON data is required"⟩, []) := by
  unfold uploadJson
  rw [h]
  rfl

/-- C10 witness: the four falsy non-null serializable values are rejected. -/
theorem c10_witness :
    uploadJson exState exWorld 5 (.num 0) none none false 900 =
      (exState, ⟨false, none, none, some "JSON data is required"⟩, [])
    ∧ uploadJson exState exWorld 5 (.bool false) none none false 900 =
      (exState, ⟨false, none, none, some "JSON data is required"⟩, [])
    ∧ uploadJson exState exWorld 5 .nan none none false 900 =
      (exState, ⟨false, none, none, some "JSON data is required"⟩, [])
    ∧ uploadJson exState exWorld 5 (.str "") none none false 900 =
      (exState, ⟨false, none, none, some "JSON data is required"⟩, []) :=
  ⟨c10_uploadJson_rejects_falsy _ _ _ _ _ _ _ _ (by decide),
   c10_uploadJson_rejects_falsy _ _ _ _ _ _ _ _ (by decide),
   c10_uploadJson_rejects_falsy _ _ _ _ _ _ _ _ (by decide),
   c10_uploadJson_rejects_falsy _ _ _ _ _ _ _ _ (by decide)⟩

/-- C8: the content type is looked up from the lower-cased file extension in
the fixed five-entry table, and any other extension (an empty one included)
yields `application/octet-stream`. -/
theorem c8_content_type_table :
    (∀ p : String, getContentType p = ctOfExt (lowerStr (extname p)))
    ∧ ctOfExt ".png" = "image/png"
    ∧ ctOfExt ".jpg" = "image/jpeg"
    ∧ ctOfExt ".jpeg" = "image/jpeg"
    ∧ ctOfExt ".gif" = "image/gif"
    ∧ ctOfExt ".webp" = "image/webp"
    ∧ ∀ e : String, e ≠ ".png" → e ≠ ".jpg" → e ≠ ".jpeg" → e ≠ ".gif" → e ≠ ".webp" →
        ctOfExt e = "application/octet-stream" := by
  refine ⟨fun _ => rfl, rfl, rfl, rfl, rfl, rfl, ?_⟩
  intro e h1 h2 h3 h4 h5
  have b1 : (e == ".png") = false := beq_eq_false_iff_ne.mpr h1
  have b2 : (e == ".jpg") = false := beq_eq_false_iff_ne.mpr h2
  have b3 : (e == ".jpeg") = false := beq_eq_false_iff_ne.mpr h3
  have b4 : (e == ".gif") = false := beq_eq_false_iff_ne.mpr h4
  have b5 : (e == ".webp") = false := beq_eq_false_iff_ne.mpr h5
  simp [ctOfExt, contentTypes, List.lookup, b1, b2, b3, b4, b5]

/-- C8 witness: an upper-case known extension and an unknown one. -/
theorem c8_witness :
    getContentType "a/b/photo.PNG" = "image/png"
    ∧ ctOfExt ".xyz" = "application/octet-stream" :=
  ⟨(c8_content_type_table.1 "a/b/photo.PNG").trans (by decide),
   c8_content_type_table.2.2.2.2.2.2 ".xyz" (by decide) (by decide) (by decide)
     (by decide) (by decide)⟩

/-- C9: no operation modifies the configuration state stored at
initialization — `uploadFile`, `uploadJson` and `generateSignedUrl` all
return the state they were given, on every path, succeeding or failing. -/
theorem c9_operations_preserve_state (st : S3State) (w : World) (now : Nat)
    (filePath key : String) (jsonData : JSValue) (fileName subDirectory : Option String)
    (useSignedUrl : Bool) (expiresIn : Nat) :
    (uploadFile st w now filePath useSignedUrl expiresIn).1 = st
    ∧ (uploadJson st w now jsonData fileName subDirectory useSignedUrl expiresIn).1 = st
    ∧ (generateSignedUrl st w key expiresIn).1 = st := by
  refine ⟨?_, ?_, rfl⟩
  · unfold uploadFile
    cases w.fs filePath with
    | none => rfl
    | some content =>
      dsimp only
      split
      · rfl
      · split
        · rfl
        · split <;> rfl
  · unfold uploadJson
    split
    · rfl
    · dsimp only
      split
      · rfl
      · split
        · rfl
        · split <;> rfl

/-- C1 counterexample: a service initialized with settings-source region
`us-east-1` (stored in `exState`) returns a URL built from
`process.env.AWS_REGION = eu-west-1`, which differs from
`https://B.s3.R.amazonaws.com/K` for the settings-source region `R`. -/
theorem c1_counterexample :
    initializeS3 exSettings = .ok exState
    ∧ exSettings.awsRegion = some "us-east-1"
    ∧ (uploadFile exState exWorld 5 "f.png" false 900).2.1 =
        ⟨true, some "https://b.s3.eu-west-1.amazonaws.com/uploads/5-f.png", none⟩
    ∧ "https://b.s3.eu-west-1.amazonaws.com/uploads/5-f.png" ≠
        "https://" ++ "b" ++ ".s3." ++ "us-east-1" ++ ".amazonaws.com/" ++ "uploads/5-f.png" :=
  ⟨rfl, rfl, by decide, by decide⟩

/-- C1 amended: when `useSignedUrl` is false, a successful `uploadFile` or
`uploadJson` returns exactly
`https://{bucket}.s3.{E}.amazonaws.com/{key}` where `E` is the value of the
`AWS_REGION` environment variable at call time (the string `undefined` when
unset) — not the region the service was initialized with. -/
theorem c1_public_url_uses_env_region (st : S3State) (w : World) (now : Nat)
    (filePath : String) (expiresIn : Nat) (content : List Nat)
    (hfs : w.fs filePath = some content)
    (hput : w.putResult ⟨st.bucket, uploadFileKey st.fileUploadPath now filePath,
      .bytes content, getContentType filePath⟩ = .ok ()) :
    (uploadFile st w now filePath false expiresIn).2.1 =
      ⟨true, some (publicUrl st.bucket w.envAwsRegion
        (uploadFileKey st.fileUploadPath now filePath)), none⟩
    ∧ ∀ jsonData fileName subDirectory, truthy jsonData = true →
        w.putResult ⟨st.bucket, jsonKey st.fileUploadPath subDirectory (actualJsonName now fileName),
          .str (jsonStringify jsonData), "application/json"⟩ = .ok () →
        (uploadJson st w now jsonData fileName subDirectory false expiresIn).2.1 =
          ⟨true,
            some (publicUrl st.bucket w.envAwsRegion
              (jsonKey st.fileUploadPath subDirectory (actualJsonName now fileName))),
            some (jsonKey st.fileUploadPath subDirectory (actualJsonName now fileName)),
            none⟩ := by
  constructor
  · unfold uploadFile
    rw [hfs]
    dsimp only
    rw [hput]
    rfl
  · intro jsonData fileName subDirectory htr hput2
    unfold uploadJson
    rw [htr]
    rw [if_neg (by decide : ¬ ((!true) = true))]
    dsimp only
    rw [hput2]
    rfl

/-- C1 witness: the amended statement evaluated on the fixture. -/
theorem c1_witness :
    (uploadFile exState exWorld 5 "f.png" false 900).2.1 =
      ⟨true, some "https://b.s3.eu-west-1.amazonaws.com/uploads/5-f.png", none⟩ := by
  have h := (c1_public_url_uses_env_region exState exWorld 5 "f.png" 900 [1, 2, 3]
    rfl rfl).1
  exact h.trans (by decide)

/-- C2 counterexample: with upload prefix `a//`, the key `uploadFile` sends
to the backend is `a//5-x.png`, which still contains two consecutive
slashes — the single `replaceAll('//', '/')` pass on `a///5-x.png` collapses
only the first pair. -/
theorem c2_counterexample :
    (uploadFile ⟨"us-east-1", "AKIA", "SECRET", "b", "a//", none⟩ exWorld 5 "x.png"
        false 900).2.2 =
      [.put ⟨"b", "a//5-x.png", .bytes [1, 2, 3], "image/png"⟩]
    ∧ hasDoubleSlash ("a//5-x.png").data = true :=
  ⟨by decide, by decide⟩

/-- C2 amended: `uploadJson` keys never contain two consecutive slashes, for
every prefix, sub-directory and filename; `uploadFile` replaces `//` pairs
in one left-to-right pass, so its key is free of consecutive slashes only
when the configured prefix itself contains no two consecutive slashes. -/
theorem c2_key_normalization (uploadPath : String) (now : Nat) :
    (∀ subDirectory fileName,
        hasDoubleSlash (jsonKey uploadPath subDirectory fileName).data = false)
    ∧ (hasDoubleSlash uploadPath.data = false →
        ∀ filePath, hasDoubleSlash (uploadFileKey uploadPath now filePath).data = false) := by
  constructor
  · intro sd fn
    exact hasDoubleSlash_jsonKey uploadPath sd fn
  · intro h filePath
    rw [uploadFileKey_data]
    exact hasDoubleSlash_replacePairs_append _ _ h (noSlash_generated_name now filePath)

/-- C2 witness: the spec's own example prefix `uploads/`. -/
theorem c2_witness :
    hasDoubleSlash (uploadFileKey "uploads/" 5 "x.png").data = false :=
  (c2_key_normalization "uploads/" 5).2 (by decide) "x.png"

/-- C3 counterexample: `generateSignedUrl` has no try/catch — when the
signer throws `new Error("boom")`, the call's outcome is that raised error
escaping the component, not a caught failure result. -/
theorem c3_counterexample :
    (generateSignedUrl exState errWorld "k.png" 900).2.1 = .error (.err "boom") := rfl

/-- C3 amended: every backend error during `uploadFile` or `uploadJson` —
whether the put throws or, on the `useSignedUrl` path, the URL signer
throws — is caught once and converted into a failure result whose `error`
is the exception's message when the exception is an `Error` (and the fixed
`Unknown error occurred` otherwise); `generateSignedUrl`, by contrast,
performs no catching and propagates the signer's outcome unchanged. -/
theorem c3_error_conversion (st : S3State) (w : World) (now : Nat)
    (filePath signKey : String) (useSignedUrl : Bool) (expiresIn : Nat)
    (e : JSErr) (content : List Nat) :
    (w.fs filePath = some content →
      w.putResult ⟨st.bucket, uploadFileKey st.fileUploadPath now filePath,
        .bytes content, getContentType filePath⟩ = .error e →
      (uploadFile st w now filePath useSignedUrl expiresIn).2.1 =
        ⟨false, none, some (jsErrMsg e)⟩)
    ∧ (∀ jsonData fileName subDirectory, truthy jsonData = true →
        w.putResult ⟨st.bucket, jsonKey st.fileUploadPath subDirectory (actualJsonName now fileName),
          .str (jsonStringify jsonData), "application/json"⟩ = .error e →
        (uploadJson st w now jsonData fileName subDirectory useSignedUrl expiresIn).2.1 =
          ⟨false, none, none, some (jsErrMsg e)⟩)
    ∧ (w.fs filePath = some content →
        w.putResult ⟨st.bucket, uploadFileKey st.fileUploadPath now filePath,
          .bytes content, getContentType filePath⟩ = .ok () →
        w.signResult st.bucket (uploadFileKey st.fileUploadPath now filePath) expiresIn =
          .error e →
        (uploadFile st w now filePath true expiresIn).2.1 =
          ⟨false, none, some (jsErrMsg e)⟩)
    ∧ (∀ jsonData fileName subDirectory, truthy jsonData = true →
        w.putResult ⟨st.bucket, jsonKey st.fileUploadPath subDirectory (actualJsonName now fileName),
          .str (jsonStringify jsonData), "application/json"⟩ = .ok () →
        w.signResult st.bucket (jsonKey st.fileUploadPath subDirectory (actualJsonName now fileName))
          expiresIn = .error e →
        (uploadJson st w now jsonData fileName subDirectory true expiresIn).2.1 =
          ⟨false, none, none, some (jsErrMsg e)⟩)
    ∧ (∀ m, jsErrMsg (.err m) = m)
    ∧ (generateSignedUrl st w signKey expiresIn).2.1 = w.signResult st.bucket signKey expiresIn := by
  refine ⟨?_, ?_, ?_, ?_, fun _ => rfl, rfl⟩
  · intro hfs hput
    unfold uploadFile
    rw [hfs]
    dsimp only
    rw [hput]
  · intro jsonData fileName subDirectory htr hput
    unfold uploadJson
    rw [htr]
    rw [if_neg (by decide : ¬ ((!true) = true))]
    dsimp only
    rw [hput]
  · intro hfs hput hsign
    unfold uploadFile
    rw [hfs]
    dsimp only
    rw [hput]
    rw [if_neg (by decide : ¬ ((!true) = true))]
    rw [hsign]
  · intro jsonData fileName subDirectory htr hput hsign
    unfold uploadJson
    rw [htr]
    rw [if_neg (by decide : ¬ ((!true) = true))]
    dsimp only
    rw [hput]
    rw [if_neg (by decide : ¬ ((!true) = true))]
    rw [hsign]

/-- C3 witness: a put `Error("boom")` during `uploadFile`, and a signer
`Error("boom")` on the signed-URL path, each become the failure result
carrying `boom`. -/
theorem c3_witness :
    (uploadFile exState errWorld 5 "f.png" false 900).2.1 = ⟨false, none, some "boom"⟩
    ∧ (uploadFile exState signErrWorld 5 "f.png" true 900).2.1 = ⟨false, none, some "boom"⟩
    ∧ (uploadJson exState signErrWorld 5 (.num 1) none none true 900).2.1 =
      ⟨false, none, none, some "boom"⟩ := by
  have h := (c3_error_conversion exState errWorld 5 "f.png" "k" false 900 (.err "boom") [7]).1
    rfl rfl
  have h2 := (c3_error_conversion exState signErrWorld 5 "f.png" "k" false 900
    (.err "boom") [7]).2.2.1 rfl rfl rfl
  have h3 := ((c3_error_conversion exState signErrWorld 5 "f.png" "k" false 900
    (.err "boom") [7]).2.2.2.1 (.num 1) none none) (by decide) rfl rfl
  exact ⟨h.trans (by decide), h2.trans (by decide), h3.trans (by decide)⟩

/-- C6 counterexample: `0` is non-null (and JSON-serializable), yet
`uploadJson` rejects it with `JSON data is required` and uploads nothing,
because the guard tests JavaScript truthiness rather than null-ness. -/
theorem c6_counterexample :
    uploadJson exState exWorld 5 (.num 0) none none false 900 =
      (exState, ⟨false, none, none, some "JSON data is required"⟩, [])
    ∧ JSValue.num 0 ≠ JSValue.null ∧ JSValue.num 0 ≠ JSValue.undef :=
  ⟨rfl, fun h => JSValue.noConfusion h, fun h => JSValue.noConfusion h⟩

/-- C6 amended: for every truthy `jsonData`, `uploadJson` uses the supplied
filename (the timestamp name `{now}.json` when none or empty is given),
issues exactly one put of the 2-space-indented `JSON.stringify` serialization
under content type `application/json` and the collapsed key
`{prefix}[/{subDirectory}]/{fileName}`, and on a successful put with
`useSignedUrl` false returns success with that key and its public URL. -/
theorem c6_uploadJson_truthy_payload (st : S3State) (w : World) (now : Nat)
    (jsonData : JSValue) (fileName subDirectory : Option String) (expiresIn : Nat)
    (h : truthy jsonData = true) :
    (actualJsonName now none = Nat.repr now ++ ".json")
    ∧ (∀ f, f ≠ "" → actualJsonName now (some f) = f)
    ∧ (uploadJson st w now jsonData fileName subDirectory false expiresIn).2.2 =
        [.put ⟨st.bucket, jsonKey st.fileUploadPath subDirectory (actualJsonName now fileName),
          .str (jsonStringify jsonData), "application/json"⟩]
    ∧ (w.putResult ⟨st.bucket, jsonKey st.fileUploadPath subDirectory (actualJsonName now fileName),
          .str (jsonStringify jsonData), "application/json"⟩ = .ok () →
        (uploadJson st w now jsonData fileName subDirectory false expiresIn).2.1 =
          ⟨true,
            some (publicUrl st.bucket w.envAwsRegion
              (jsonKey st.fileUploadPath subDirectory (actualJsonName now fileName))),
            some (jsonKey st.fileUploadPath subDirectory (actualJsonName now fileName)),
            none⟩) := by
  refine ⟨rfl, ?_, ?_, ?_⟩
  · intro f hf
    simp [actualJsonName, hf]
  · unfold uploadJson
    rw [h]
    rw [if_neg (by decide : ¬ ((!true) = true))]
    dsimp only
    split <;> rfl
  · intro hput
    unfold uploadJson
    rw [h]
    rw [if_neg (by decide : ¬ ((!true) = true))]
    dsimp only
    rw [hput]
    rfl

/-- C6 witness: `uploadJson({a: 1})` with no filename, prefix `uploads/`,
timestamp `5`: one put of the pretty-printed body under `uploads/5.json`,
and a success result carrying that key. -/
theorem c6_witness :
    (uploadJson exState exWorld 5 (.obj [("a", .num 1)]) none none false 900).2.2 =
      [.put ⟨"b", "uploads/5.json", .str "\x7b\n  \"a\": 1\n\x7d", "application/json"⟩]
    ∧ (uploadJson exState exWorld 5 (.obj [("a", .num 1)]) none none false 900).2.1 =
      ⟨true, some "https://b.s3.eu-west-1.amazonaws.com/uploads/5.json",
        some "uploads/5.json", none⟩ := by
  have h := c6_uploadJson_truthy_payload exState exWorld 5 (.obj [("a", .num 1)]) none none 900
    (by decide)
  exact ⟨h.2.2.1.trans (by decide), (h.2.2.2 rfl).trans (by decide)⟩

end AwsS3
